import Mathlib

/-!
Verification of the encp media-processing pipeline: a shallow embedding of
the task queue (`queue_manager.py`), the download verifier and progress
record (`downloaders.py`), the transcode coordinator (`encode.py`,
`cpu_encoder.py`) and the daemon supervisor port resolution
(`startup.py`), together with theorems settling the claims of the specification
about them.
-/

namespace Encp

/-- Python `int()` truncation toward zero, on a rational: the numerator
divided by the denominator with the truncating integer division of Lean. -/
def pyTrunc (q : ℚ) : ℤ := Int.tdiv q.num (q.den : ℤ)

instance {ε α : Type} [DecidableEq ε] [DecidableEq α] : DecidableEq (Except ε α) :=
  fun a b =>
    match a, b with
    | .ok x, .ok y =>
        if h : x = y then isTrue (by rw [h]) else isFalse (by intro hc; cases hc; exact h rfl)
    | .error x, .error y =>
        if h : x = y then isTrue (by rw [h]) else isFalse (by intro hc; cases hc; exact h rfl)
    | .ok _, .error _ => isFalse (by intro hc; cases hc)
    | .error _, .ok _ => isFalse (by intro hc; cases hc)

/-! ## Task queue (`queue_manager.py`)

`QueueItem` mirrors the dataclass fields the queue logic touches; the
Telegram `message` object is irrelevant to the queue semantics and is
omitted.  `QMState.queue` embeds the `deque`, `QMState.activeTasks` embeds
the `active_tasks` dict as an association list.  In Python the dict and the
deque alias the same `QueueItem` objects, so setting `cancel_flag` through
the dict is visible from the queue; the embedding updates both views by
`task_id`. -/

structure QueueItem where
  taskId : String
  userId : ℤ
  filePath : String
  quality : String
  status : String
  cancelFlag : Bool
deriving DecidableEq, Repr

structure QMState where
  queue : List QueueItem
  activeTasks : List (String × QueueItem)
deriving DecidableEq, Repr

/-- Dict lookup `active_tasks[task_id]` (first binding wins, as after
Python dict assignment semantics are modelled by insert-overwrite). -/
def lookupTask (ts : List (String × QueueItem)) (tid : String) : Option QueueItem :=
  match ts with
  | [] => none
  | (k, v) :: rest => if k = tid then some v else lookupTask rest tid

/-- Dict assignment `active_tasks[task_id] = item`: overwrite any previous
binding for that key. -/
def insertTask (ts : List (String × QueueItem)) (tid : String) (item : QueueItem) :
    List (String × QueueItem) :=
  (tid, item) :: ts.filter (fun kv => kv.1 ≠ tid)

/-- Dict deletion `del active_tasks[task_id]` (the `finally` block of
`process_queue`, lines 241-243). -/
def evictTask (st : QMState) (tid : String) : QMState :=
  { st with activeTasks := st.activeTasks.filter (fun kv => kv.1 ≠ tid) }

/-- Set `item.cancel_flag = True` on the shared object: both the dict
binding and any queue occurrence with that `task_id` observe the update. -/
def setCancelFlag (st : QMState) (tid : String) : QMState :=
  { queue := st.queue.map (fun it => if it.taskId = tid then { it with cancelFlag := true } else it)
    activeTasks := st.activeTasks.map
      (fun kv => if kv.1 = tid then (kv.1, { kv.2 with cancelFlag := true }) else kv) }

/-- `QueueManager.cancel_task` (lines 154-169): if the id is tracked in
`active_tasks`, set the cancellation flag of the item and return `True`;
otherwise return `False` without touching any state. -/
def cancelTask (st : QMState) (tid : String) : QMState × Bool :=
  match lookupTask st.activeTasks tid with
  | some _ => (setCancelFlag st tid, true)
  | none => (st, false)

/-- `QueueManager.add_item` (lines 101-104): append to the deque, register
in `active_tasks`, return the task id. -/
def addItem (st : QMState) (item : QueueItem) : QMState × String :=
  ({ queue := st.queue ++ [item]
     activeTasks := insertTask st.activeTasks item.taskId item }, item.taskId)

/-- `QueueManager.get_next` (lines 106-107): pop from the left of the
deque, or return `None` on an empty queue. -/
def getNext (st : QMState) : Option QueueItem × QMState :=
  match st.queue with
  | [] => (none, st)
  | it :: rest => (some it, { st with queue := rest })

/-- Fold of `add_item` over a list of items, in order. -/
def addAll (st : QMState) (items : List QueueItem) : QMState :=
  match items with
  | [] => st
  | it :: rest => addAll (addItem st it).1 rest

/-- Repeatedly `get_next` until the queue is empty, collecting the popped
items in order. -/
def drainAll (st : QMState) : List QueueItem × QMState :=
  match st with
  | ⟨[], ts⟩ => ([], ⟨[], ts⟩)
  | ⟨it :: rest, ts⟩ =>
      let res := drainAll ⟨rest, ts⟩
      (it :: res.1, res.2)

/-! ## Download progress (`downloaders.py`, `DownloadProgress.percentage`) -/

/-- `DownloadProgress` fields used by `percentage` (lines 61-78).
`completed` and `total` are aria2 byte counts (Python ints). -/
structure DownloadProgress where
  completed : ℤ
  total : ℤ
deriving DecidableEq, Repr

/-- `DownloadProgress.percentage` (lines 73-78): `0` when `total <= 0`,
otherwise `completed / total * 100` (exact rational arithmetic embeds the
Python float expression). -/
def DownloadProgress.percentage (p : DownloadProgress) : ℚ :=
  if p.total ≤ 0 then 0 else ((p.completed : ℚ) / (p.total : ℚ)) * 100

/-! ## Transcode coordinator (`encode.py`, `cpu_encoder.py`)

Sizes in MB and durations in seconds are Python floats; the embedding uses
exact rationals.  The quality-profile table `Config.QUALITY_PARAMS` is
referenced by both encoder classes but is absent from `config.py`; the
embedding therefore keeps the per-profile audio bitrate as an explicit
argument and models the set of valid resolutions from the
`QualityProfile` section of the spec (480p/720p/1080p, as in `Config.QUALITIES` and
`VideoEncoder.MAX_SIZES`). -/

/-- `VideoEncoder.MAX_SIZES` (encode.py lines 44-48): per-resolution size
ceiling in MB (target + 5% tolerance). -/
def MAX_SIZES (resolution : String) : Option ℚ :=
  if resolution = "480p" then some 105
  else if resolution = "720p" then some 210
  else if resolution = "1080p" then some 315
  else none

/-- `VideoEncoder._calculate_target_size` (encode.py lines 191-233),
given the input file size in MB: a resolution-dependent fraction of the
input size, capped at `MAX_SIZES[resolution]` and floored at 10% of that
cap.  The final `else` branch of the code treats any other resolution as
1080p. -/
def calculateTargetSize (inputSize : ℚ) (resolution : String) : ℚ :=
  let target :=
    if resolution = "480p" then min (inputSize * (35 / 100)) 105
    else if resolution = "720p" then min (inputSize * (55 / 100)) 210
    else min (inputSize * (75 / 100)) 315
  let minSize :=
    (if resolution = "480p" then (105 : ℚ) else if resolution = "720p" then 210 else 315) * (1 / 10)
  max target minSize

/-- The target-size resolution step of `VideoEncoder.encode_video`
(encode.py lines 396-398): a missing or non-positive requested target is
replaced by the auto-computed `int(_calculate_target_size(...))`; a
positive request is kept as is. -/
def videoResolveTarget (requested : Option ℤ) (inputSize : ℚ) (resolution : String) : ℤ :=
  match requested with
  | none => pyTrunc (calculateTargetSize inputSize resolution)
  | some t => if t ≤ 0 then pyTrunc (calculateTargetSize inputSize resolution) else t

/-- The `target_size` guard of `CPUEncoder.encode_video` (cpu_encoder.py
lines 153-154): raise `ValueError` on a non-positive target, before any
probing or process launch. -/
def cpuValidateTarget (targetSize : ℤ) : Except String ℤ :=
  if targetSize ≤ 0 then .error "Target size must be positive" else .ok targetSize

/-- Target-size handling of the `VideoEncoder.encode_video` entry point
followed by the `CPUEncoder.encode_video` guard: the value that reaches
the guard is the resolved target, not the requested one. -/
def videoEncodeTargetCheck (requested : Option ℤ) (inputSize : ℚ) (resolution : String) :
    Except String ℤ :=
  cpuValidateTarget (videoResolveTarget requested inputSize resolution)

/-- The bitrate computation of `CPUEncoder.encode_video` (cpu_encoder.py
lines 168-171): `int((target_size * 8 * 1024 * 1024 / duration) -
audio_bitrate)`.  No margin factor is applied and no floor/ceiling clamp
follows. -/
def cpuVideoBitrate (targetSize : ℤ) (duration : ℚ) (audioBitrate : ℤ) : ℤ :=
  pyTrunc (((targetSize : ℚ) * 8 * 1024 * 1024) / duration - (audioBitrate : ℚ))

/-- Bitrate computation plus the non-positivity guard of
`CPUEncoder.encode_video` (cpu_encoder.py lines 168-176). -/
def cpuBitrateCheck (targetSize : ℤ) (duration : ℚ) (audioBitrate : ℤ) : Except String ℤ :=
  let vb := cpuVideoBitrate targetSize duration audioBitrate
  if vb ≤ 0 then .error "Calculated video bitrate is too low" else .ok vb

/-- The bitrate formula of the claim, for comparison with `cpuVideoBitrate`:
`((targetSizeMB * margin) * 8 * 2^20) / duration - audioBitrate`, clamped
to a floor and a ceiling (the clamp constants of
`VideoEncoder._calculate_encoding_params`, encode.py line 169, are 100000
and 50000000). -/
def specVideoBitrate (targetSize : ℤ) (margin : ℚ) (duration : ℚ) (audioBitrate : ℤ)
    (low high : ℤ) : ℤ :=
  max low (min high (pyTrunc (((targetSize : ℚ) * margin * 8 * 1048576) / duration
    - (audioBitrate : ℚ))))

/-! ### The monitoring loop of `CPUEncoder.encode_video` (lines 241-317)

One iteration of the `while self.process.poll() is None` loop is driven by
what the iteration observes: the cancellation flag, whether the output
file exists yet and its current size, whether the one-second progress
throttle has elapsed (`time.time() - last_update >= 1`), and whether the
progress callback raises.  The loop state carries `stall_count`,
`last_size`, `failed_updates`, and a count of the stall warnings logged. -/

structure PollObs where
  cancelled : Bool
  outputExists : Bool
  size : ℚ
  updateDue : Bool
  cbThrows : Bool
deriving DecidableEq, Repr

structure CpuMonState where
  stallCount : ℕ
  lastSize : ℚ
  failedUpdates : ℕ
  stallWarnings : ℕ
deriving DecidableEq, Repr

/-- Loop state at process start (cpu_encoder.py lines 235-238). -/
def cpuMonInit : CpuMonState := ⟨0, 0, 0, 0⟩

/-- One iteration of the monitoring loop (cpu_encoder.py lines 241-317):
cancellation raises `CancelledError`; a missing output file skips the
body; an unchanged size increments `stall_count` and, past 60 polls, only
logs a stall warning (the code comments there that it does not raise an
error, it just logs a warning); a changed size resets `stall_count` and, when the
update is due, runs the progress callback — five consecutive callback
failures raise. -/
def cpuPoll (st : CpuMonState) (o : PollObs) : Except String CpuMonState :=
  if o.cancelled then .error "Encoding cancelled by user"
  else if ¬ o.outputExists then .ok st
  else if o.size = st.lastSize then
    .ok { st with
          stallCount := st.stallCount + 1
          stallWarnings := st.stallWarnings + (if st.stallCount + 1 > 60 then 1 else 0) }
  else if o.updateDue then
    if o.cbThrows then
      if st.failedUpdates + 1 ≥ 5 then .error "Too many failed progress updates"
      else .ok { st with stallCount := 0, failedUpdates := st.failedUpdates + 1 }
    else .ok { stallCount := 0, lastSize := o.size, failedUpdates := 0
               stallWarnings := st.stallWarnings }
  else .ok { st with stallCount := 0 }

/-- The monitoring loop run over a finite trace of per-iteration
observations, propagating the first raised error. -/
def cpuMonitor (st : CpuMonState) : List PollObs → Except String CpuMonState
  | [] => .ok st
  | o :: os =>
      match cpuPoll st o with
      | .error e => .error e
      | .ok st2 => cpuMonitor st2 os

/-- A run that makes one poll of progress to size 5 MB and then observes
the same size for 100 further polls (about 50 seconds of zero growth). -/
def stalledTrace : List PollObs :=
  ⟨false, true, 5, true, false⟩ :: List.replicate 100 ⟨false, true, 5, true, false⟩

/-! ### Finalisation in `VideoEncoder.encode_video` (encode.py lines 412-427)

After the CPU encoder returns, the wrapper verifies the file and checks
the final size against `MAX_SIZES[resolution]`.  The embedding records
whether the oversize warning was logged; the code path returns success
either way. -/

structure EncodeEnv where
  verifyOk : Bool
  finalSizeMB : ℚ
deriving DecidableEq, Repr

inductive EncodeResult where
  | success (finalSize : ℚ) (warned : Bool)
  | failure (msg : String)
deriving DecidableEq, Repr

/-- The tail of `VideoEncoder.encode_video` (lines 412-427): raise when
`_verify_file` fails; otherwise compare the final size with
`MAX_SIZES[resolution]`, log a warning when it is exceeded, and return
success regardless. -/
def encodeVideoFinalize (resolution : String) (env : EncodeEnv) : EncodeResult :=
  if ¬ env.verifyOk then .failure "Encoded file verification failed"
  else
    match MAX_SIZES resolution with
    | none => .failure "KeyError"
    | some maxAllowed => .success env.finalSizeMB (decide (env.finalSizeMB > maxAllowed))

/-! ## Download verification (`downloaders.py`, `Downloader._verify_download`)

The verifier loops until `verification_timeout` elapses; each iteration
re-reads the filesystem.  The embedding drives one iteration from an
`FsObs` snapshot: whether the file exists (the "alternative" path the code
builds, `path_obj.parent / path_obj.name`, is the same path, so a single
existence bit is faithful), whether the `.aria2` control file is present,
and the sizes seen before and after the `verify_wait` sleep.  The loop is
run over a finite list of snapshots — each iteration sleeps at least one
second, so the timeout admits only finitely many; an exhausted list is the
timeout case.  The code only reads the filesystem (exists/stat); no
iteration writes to the file. -/

structure FsObs where
  fileExists : Bool
  aria2Exists : Bool
  initialSize : ℕ
  currentSize : ℕ
deriving DecidableEq, Repr

inductive VerifyStep where
  | success
  | retry
deriving DecidableEq, Repr

/-- One iteration of the `_verify_download` loop (downloaders.py lines
585-620): a missing file or a still-present `.aria2` control file waits
and re-checks; a positive, stable size returns success; anything else
(size changed, or a raised stat error) retries. -/
def verifyStep (o : FsObs) : VerifyStep :=
  if ¬ o.fileExists then .retry
  else if o.aria2Exists then .retry
  else if o.currentSize > 0 ∧ o.initialSize = o.currentSize then .success
  else .retry

/-- `Downloader._verify_download` over its iteration snapshots: `true` as
soon as an iteration sees a stable non-empty file with no control file,
`false` when the verification window is exhausted (downloaders.py lines
622-623). -/
def verifyDownload : List FsObs → Bool
  | [] => false
  | o :: rest =>
      match verifyStep o with
      | .success => true
      | .retry => verifyDownload rest

/-- A snapshot of an untouched, fully downloaded file of size `s`:
present, no `.aria2` control file, same size before and after the
stability wait. -/
def stableObs (s : ℕ) (o : FsObs) : Prop :=
  o.fileExists = true ∧ o.aria2Exists = false ∧ o.initialSize = s ∧ o.currentSize = s

/-! ## Daemon port resolution (`startup.py`, `ProcessManager.start_aria2c`)

`_check_port_available` is an environment probe; the embedding abstracts
it as a predicate `free : ℕ → Bool`.  `_find_available_port(start, end)`
scans `range(start, end + 1)` and returns the first free port. -/

/-- Scan `fuel` consecutive ports starting at `port`, returning the first
free one. -/
def scanPorts (free : ℕ → Bool) : ℕ → ℕ → Option ℕ
  | _, 0 => none
  | port, fuel + 1 => if free port then some port else scanPorts free (port + 1) fuel

/-- `ProcessManager._find_available_port(start_port, end_port)`
(startup.py lines 352-357): first free port in
`range(start_port, end_port + 1)`, else `None`. -/
def findAvailablePort (free : ℕ → Bool) (startPort endPort : ℕ) : Option ℕ :=
  scanPorts free startPort (endPort + 1 - startPort)

/-- Outcome of the port-selection step of `start_aria2c`. -/
inductive PortDecision where
  | usePort (p : ℕ)
  | fail
deriving DecidableEq, Repr

/-- The port-selection step of `ProcessManager.start_aria2c` (startup.py
lines 277-284): keep the configured port when free; otherwise adopt the
first free port in `range(configured + 1, 7001)`; raise `Aria2Error` —
before the process is launched — when none is free. -/
def resolvePort (free : ℕ → Bool) (configured : ℕ) : PortDecision :=
  if free configured then .usePort configured
  else
    match findAvailablePort free (configured + 1) 7000 with
    | some p => .usePort p
    | none => .fail

/-! ## Helper lemmas -/

theorem pyTrunc_eq_floor (q : ℚ) (h : 0 ≤ q) : pyTrunc q = ⌊q⌋ := by
  have hnum : 0 ≤ q.num := Rat.num_nonneg.mpr h
  rw [pyTrunc, Int.tdiv_eq_ediv hnum (Int.natCast_nonneg q.den), Rat.floor_def]

theorem pyTrunc_eval (q : ℚ) (n : ℤ) (hn : 0 ≤ n) (h1 : (n : ℚ) ≤ q) (h2 : q < n + 1) :
    pyTrunc q = n := by
  have h0 : (0 : ℚ) ≤ q := le_trans (by exact_mod_cast hn) h1
  rw [pyTrunc_eq_floor q h0]
  exact Int.floor_eq_iff.mpr ⟨h1, h2⟩

theorem pyTrunc_nonpos (q : ℚ) (h : q ≤ 0) : pyTrunc q ≤ 0 := by
  have hnum : q.num ≤ 0 := Rat.num_nonpos.mpr h
  have h2 : 0 ≤ (-q.num).tdiv (q.den : ℤ) :=
    Int.tdiv_nonneg (by omega) (Int.natCast_nonneg q.den)
  have h3 : (-q.num).tdiv (q.den : ℤ) = -(q.num.tdiv (q.den : ℤ)) :=
    Int.neg_tdiv q.num (q.den : ℤ)
  rw [pyTrunc]
  omega

theorem lookupTask_map_cancel (ts : List (String × QueueItem)) (tid : String) :
    lookupTask (ts.map (fun kv => if kv.1 = tid then (kv.1, { kv.2 with cancelFlag := true }) else kv)) tid
      = (lookupTask ts tid).map (fun it => { it with cancelFlag := true }) := by
  induction ts with
  | nil => rfl
  | cons kv rest ih =>
      obtain ⟨k, v⟩ := kv
      simp only [List.map_cons]
      by_cases h : k = tid
      · rw [show (if ((k, v) : String × QueueItem).1 = tid
              then ((k, v).1, { (k, v).2 with cancelFlag := true }) else (k, v))
            = (k, { v with cancelFlag := true }) from by simp [h]]
        subst h
        simp [lookupTask]
      · rw [show (if ((k, v) : String × QueueItem).1 = tid
              then ((k, v).1, { (k, v).2 with cancelFlag := true }) else (k, v))
            = (k, v) from by simp [h]]
        simp [lookupTask, h, ih]

theorem lookupTask_filter_ne (ts : List (String × QueueItem)) (tid : String) :
    lookupTask (ts.filter (fun kv => kv.1 ≠ tid)) tid = none := by
  induction ts with
  | nil => rfl
  | cons kv rest ih =>
      obtain ⟨k, v⟩ := kv
      by_cases h : k = tid
      · simpa [h] using ih
      · simpa [List.filter, h, lookupTask] using ih

theorem addAll_queue (items : List QueueItem) (st : QMState) :
    (addAll st items).queue = st.queue ++ items := by
  induction items generalizing st with
  | nil => simp [addAll]
  | cons it rest ih => simp [addAll, addItem, ih]

theorem drainAll_eq (q : List QueueItem) (ts : List (String × QueueItem)) :
    drainAll ⟨q, ts⟩ = (q, ⟨[], ts⟩) := by
  induction q with
  | nil => simp [drainAll]
  | cons it rest ih => simp [drainAll, ih]

/-! ## Claim theorems -/

/-- C9: `DownloadProgress.percentage` is total and never divides by zero:
whenever `total ≤ 0` it returns `0`, and whenever `total > 0` it returns
`(completed / total) * 100`. -/
theorem percentage_welldefined (p : DownloadProgress) :
    (p.total ≤ 0 → p.percentage = 0) ∧
    (0 < p.total → p.percentage = ((p.completed : ℚ) / (p.total : ℚ)) * 100) := by
  constructor
  · intro h
    simp [DownloadProgress.percentage, h]
  · intro h
    simp [DownloadProgress.percentage, not_le.mpr h]

/-- Witness for C9: the percentage of 50 bytes out of 200 is 25, and a
zero total yields 0 rather than a division error. -/
theorem percentage_welldefined_witness :
    DownloadProgress.percentage ⟨50, 200⟩ = 25 ∧ DownloadProgress.percentage ⟨50, 0⟩ = 0 := by
  constructor
  · rw [(percentage_welldefined ⟨50, 200⟩).2 (by norm_num)]
    norm_num
  · exact (percentage_welldefined ⟨50, 0⟩).1 (by norm_num)

/-- C5: `cancel_task` sets the cancellation flag of a tracked task and
returns `true`; on an unknown id, or on an id already evicted from the
active-task index on reaching a terminal state, it returns `false` and
leaves the whole state unchanged. -/
theorem cancelTask_spec (st : QMState) (tid : String) :
    (∀ item, lookupTask st.activeTasks tid = some item →
       (cancelTask st tid).2 = true ∧
       lookupTask (cancelTask st tid).1.activeTasks tid
         = some { item with cancelFlag := true }) ∧
    (lookupTask st.activeTasks tid = none → cancelTask st tid = (st, false)) ∧
    cancelTask (evictTask st tid) tid = (evictTask st tid, false) := by
  refine ⟨?_, ?_, ?_⟩
  · intro item h
    constructor
    · simp [cancelTask, h]
    · simp [cancelTask, h, setCancelFlag, lookupTask_map_cancel]
  · intro h
    simp [cancelTask, h]
  · have h : lookupTask (evictTask st tid).activeTasks tid = none :=
      lookupTask_filter_ne st.activeTasks tid
    simp [cancelTask, h]

/-- Witness for C5: with task `a1` active, cancelling `a1` succeeds and
flips the flag; cancelling the unknown id `zz` returns `false` unchanged;
cancelling `a1` after eviction returns `false`. -/
theorem cancelTask_spec_witness :
    (cancelTask ⟨[⟨"a1", 7, "f.mkv", "720p", "queued", false⟩],
        [("a1", ⟨"a1", 7, "f.mkv", "720p", "queued", false⟩)]⟩ "a1").2 = true ∧
    lookupTask (cancelTask ⟨[⟨"a1", 7, "f.mkv", "720p", "queued", false⟩],
        [("a1", ⟨"a1", 7, "f.mkv", "720p", "queued", false⟩)]⟩ "a1").1.activeTasks "a1"
      = some ⟨"a1", 7, "f.mkv", "720p", "queued", true⟩ ∧
    cancelTask ⟨[], [("a1", ⟨"a1", 7, "f.mkv", "720p", "queued", false⟩)]⟩ "zz"
      = (⟨[], [("a1", ⟨"a1", 7, "f.mkv", "720p", "queued", false⟩)]⟩, false) := by
  have h1 := (cancelTask_spec ⟨[⟨"a1", 7, "f.mkv", "720p", "queued", false⟩],
        [("a1", ⟨"a1", 7, "f.mkv", "720p", "queued", false⟩)]⟩ "a1").1
        ⟨"a1", 7, "f.mkv", "720p", "queued", false⟩ (by decide)
  have h2 := (cancelTask_spec ⟨[], [("a1", ⟨"a1", 7, "f.mkv", "720p", "queued", false⟩)]⟩ "zz").2.1
        (by decide)
  exact ⟨h1.1, h1.2, h2⟩

/-- C10: the queue is FIFO — draining after adding a batch to an empty
queue returns the items in insertion order; `get_next` on an empty queue
returns `none` and leaves the state unchanged; `add_item` registers the
item in the active-task index under its task id. -/
theorem queue_fifo (st : QMState) (items : List QueueItem) (item : QueueItem) :
    (st.queue = [] → (drainAll (addAll st items)).1 = items) ∧
    (st.queue = [] → getNext st = (none, st)) ∧
    lookupTask (addItem st item).1.activeTasks item.taskId = some item := by
  obtain ⟨q, ts⟩ := st
  refine ⟨?_, ?_, ?_⟩
  · intro h
    subst h
    have h2 : drainAll (addAll ⟨[], ts⟩ items)
        = ((addAll ⟨[], ts⟩ items).queue, ⟨[], (addAll ⟨[], ts⟩ items).activeTasks⟩) := by
      obtain ⟨q2, ts2⟩ := addAll ⟨[], ts⟩ items
      exact drainAll_eq q2 ts2
    rw [h2]
    simpa using addAll_queue items ⟨[], ts⟩
  · intro h
    subst h
    rfl
  · simp [addItem, insertTask, lookupTask]

/-- Witness for C10: adding tasks `a`, `b`, `c` to an empty queue and
draining yields `a`, `b`, `c` in order; `get_next` on the empty state is
`none`; task `a` is registered under its id. -/
theorem queue_fifo_witness :
    (drainAll (addAll ⟨[], []⟩
       [⟨"a", 1, "x", "480p", "queued", false⟩,
        ⟨"b", 2, "y", "720p", "queued", false⟩,
        ⟨"c", 3, "z", "1080p", "queued", false⟩])).1
      = [⟨"a", 1, "x", "480p", "queued", false⟩,
         ⟨"b", 2, "y", "720p", "queued", false⟩,
         ⟨"c", 3, "z", "1080p", "queued", false⟩] ∧
    getNext ⟨[], []⟩ = (none, ⟨[], []⟩) ∧
    lookupTask (addItem ⟨[], []⟩ ⟨"a", 1, "x", "480p", "queued", false⟩).1.activeTasks "a"
      = some ⟨"a", 1, "x", "480p", "queued", false⟩ := by
  have h := queue_fifo ⟨[], []⟩
       [⟨"a", 1, "x", "480p", "queued", false⟩,
        ⟨"b", 2, "y", "720p", "queued", false⟩,
        ⟨"c", 3, "z", "1080p", "queued", false⟩]
       ⟨"a", 1, "x", "480p", "queued", false⟩
  exact ⟨h.1 rfl, h.2.1 rfl, h.2.2⟩

/-- C1 counterexample: a verified 1080p output of 400 MB exceeds
`MAX_SIZES["1080p"] = 315`, yet `encode_video` returns success (with the
oversize warning logged) instead of raising. -/
theorem encode_oversize_returns_success :
    encodeVideoFinalize "1080p" ⟨true, 400⟩ = .success 400 true ∧
    MAX_SIZES "1080p" = some 315 ∧ (400 : ℚ) > 315 := by
  refine ⟨?_, by decide, by norm_num⟩
  have h315 : MAX_SIZES "1080p" = some 315 := by decide
  have h400 : (decide ((400 : ℚ) > 315)) = true := by decide
  simp [encodeVideoFinalize, h315, h400]

/-- C1 amended: when verification succeeds, `encode_video` returns success
whatever the final size; exceeding `MAX_SIZES[resolution]` only sets the
logged-warning flag, which is true exactly when the bound is exceeded. -/
theorem encode_final_size_only_warns (resolution : String) (env : EncodeEnv) (maxAllowed : ℚ)
    (hmax : MAX_SIZES resolution = some maxAllowed) (hver : env.verifyOk = true) :
    ∃ w, encodeVideoFinalize resolution env = .success env.finalSizeMB w ∧
      (w = true ↔ env.finalSizeMB > maxAllowed) := by
  refine ⟨decide (env.finalSizeMB > maxAllowed), ?_, by simp⟩
  simp [encodeVideoFinalize, hver, hmax]

/-- Witness for the amended C1: a verified 480p output of 200 MB (over the
105 MB cap) is returned as a success with the warning flag set. -/
theorem encode_final_size_only_warns_witness :
    ∃ w, encodeVideoFinalize "480p" ⟨true, 200⟩ = .success 200 w ∧ (w = true ↔ (200 : ℚ) > 105) :=
  encode_final_size_only_warns "480p" ⟨true, 200⟩ 105 (by decide) rfl

set_option maxRecDepth 10000 in
/-- C2 counterexample: one poll of progress to 5 MB followed by 100 polls
(about 50 s) with zero growth — far past the stall threshold — leaves the
monitoring loop running (`Except.ok`): it logs 40 stall warnings but never
terminates the child process or fails with a stall error. -/
theorem cpu_stall_never_fails :
    cpuMonitor cpuMonInit stalledTrace = .ok ⟨100, 5, 0, 40⟩ := by rfl

/-- C2 amended: the monitoring loop of `CPUEncoder.encode_video` can fail
only through cancellation or repeated progress-callback failures; on any
trace free of both — stalled or not — it runs to completion, so size
stagnation alone produces warnings, never termination or a stall error. -/
theorem cpuMonitor_no_stall_failure (os : List PollObs) (st : CpuMonState)
    (h : ∀ o ∈ os, o.cancelled = false ∧ o.cbThrows = false) :
    ∃ st2, cpuMonitor st os = .ok st2 := by
  induction os generalizing st with
  | nil => exact ⟨st, rfl⟩
  | cons o rest ih =>
      obtain ⟨h1, h2⟩ := h o (List.mem_cons_self o rest)
      have hrest : ∀ o2 ∈ rest, o2.cancelled = false ∧ o2.cbThrows = false :=
        fun o2 hm => h o2 (List.mem_cons_of_mem o hm)
      have hpoll : ∃ st2, cpuPoll st o = .ok st2 := by
        unfold cpuPoll
        rw [h1]
        by_cases he : o.outputExists <;> by_cases hs : o.size = st.lastSize <;>
          by_cases hu : o.updateDue <;> simp [he, hs, hu, h2]
      obtain ⟨st2, hok⟩ := hpoll
      obtain ⟨st3, hrun⟩ := ih st2 hrest
      exact ⟨st3, by simp [cpuMonitor, hok, hrun]⟩

/-- Witness for the amended C2: 70 uncancelled zero-growth polls complete
without an error. -/
theorem cpuMonitor_no_stall_failure_witness :
    ∃ st2, cpuMonitor cpuMonInit (List.replicate 70 ⟨false, true, 0, true, false⟩) = .ok st2 :=
  cpuMonitor_no_stall_failure _ cpuMonInit (by
    intro o ho
    rw [List.eq_of_mem_replicate ho]
    exact ⟨rfl, rfl⟩)

/-- C3 counterexample: a requested target size of 0 MB reaching the
`VideoEncoder.encode_video` entry point (input file of 100 MB, 720p) is
not rejected: the request is silently replaced by the auto-computed
55 MB target and accepted, so the external process would be launched. -/
theorem videoTarget_zero_not_rejected :
    videoEncodeTargetCheck (some 0) 100 "720p" = .ok 55 := by
  have hc : calculateTargetSize 100 "720p" = 55 := by
    have e1 : ¬ ("720p" : String) = "480p" := by decide
    have e2 : ("720p" : String) = "720p" := rfl
    simp only [calculateTargetSize, if_neg e1, if_pos e2]
    norm_num [min_def, max_def]
  have ht : videoResolveTarget (some 0) 100 "720p" = 55 := by
    show (if (0 : ℤ) ≤ 0 then pyTrunc (calculateTargetSize 100 "720p") else 0) = 55
    rw [if_pos (by norm_num : (0 : ℤ) ≤ 0), hc]
    exact pyTrunc_eval 55 55 (by norm_num) (by norm_num) (by norm_num)
  unfold videoEncodeTargetCheck
  rw [ht]
  rfl

/-- C3 amended: `CPUEncoder.encode_video` raises a `ValueError` on a
non-positive target size before launching the external process, but the
`VideoEncoder.encode_video` entry point does not reject a zero or
negative requested target — it replaces it with the auto-computed
positive target and proceeds. -/
theorem targetSize_validation (t requested : ℤ) (inputSize : ℚ) (resolution : String)
    (hreq : requested ≤ 0) :
    (t ≤ 0 → cpuValidateTarget t = .error "Target size must be positive") ∧
    (0 < t → cpuValidateTarget t = .ok t) ∧
    ∃ v, videoEncodeTargetCheck (some requested) inputSize resolution = .ok v ∧ 0 < v := by
  refine ⟨fun h => by simp [cpuValidateTarget, h], fun h => by simp [cpuValidateTarget, not_le.mpr h], ?_⟩
  set c := calculateTargetSize inputSize resolution with hc
  have hmin : (21 / 2 : ℚ) ≤ c := by
    rw [hc]
    unfold calculateTargetSize
    refine le_trans ?_ (le_max_right _ _)
    by_cases h1 : resolution = "480p"
    · simp [h1]; norm_num
    · by_cases h2 : resolution = "720p"
      · simp [h1, h2]; norm_num
      · simp [h1, h2]; norm_num
  have hc0 : (0 : ℚ) ≤ c := le_trans (by norm_num) hmin
  have hfloor : (10 : ℤ) ≤ ⌊c⌋ := Int.le_floor.mpr (le_trans (by norm_num) hmin)
  have htr : pyTrunc c = ⌊c⌋ := pyTrunc_eq_floor c hc0
  have hres : videoResolveTarget (some requested) inputSize resolution = pyTrunc c := by
    simp [videoResolveTarget, hreq, hc]
  refine ⟨pyTrunc c, ?_, by omega⟩
  have hpos : ¬ pyTrunc c ≤ 0 := by omega
  simp [videoEncodeTargetCheck, hres, cpuValidateTarget, hpos]

/-- Witness for the amended C3: target −3 is rejected by the CPU encoder
guard, while a requested target of 0 passes the entry point with a
positive auto-computed value. -/
theorem targetSize_validation_witness :
    cpuValidateTarget (-3) = .error "Target size must be positive" ∧
    ∃ v, videoEncodeTargetCheck (some 0) 100 "720p" = .ok v ∧ 0 < v := by
  have h := targetSize_validation (-3) 0 100 "720p" (by norm_num)
  exact ⟨h.1 (by norm_num), h.2.2⟩

/-- C4 counterexample: target 1 MB, duration 128 s, audio 64 kbps — the
code computes `int(1*8*2^20/128 - 64000) = 1536` and accepts it, below
the claimed 100 kbps floor; the claimed formula (with the clamp constants
of `_calculate_encoding_params`, at margin 1 or at the 1.2 target
margin) yields the clamped 100000 instead, so the code neither applies a
margin nor clamps. -/
theorem cpuBitrate_counterexample :
    cpuBitrateCheck 1 128 64000 = .ok 1536 ∧
    specVideoBitrate 1 1 128 64000 100000 50000000 = 100000 ∧
    specVideoBitrate 1 (6 / 5) 128 64000 100000 50000000 = 100000 ∧
    (1536 : ℤ) < 100000 := by
  have hvb : cpuVideoBitrate 1 128 64000 = 1536 := by
    rw [cpuVideoBitrate]
    exact pyTrunc_eval _ 1536 (by norm_num) (by norm_num) (by norm_num)
  refine ⟨?_, ?_, ?_, by norm_num⟩
  · have hc : cpuBitrateCheck 1 128 64000
        = if cpuVideoBitrate 1 128 64000 ≤ 0
          then .error "Calculated video bitrate is too low"
          else .ok (cpuVideoBitrate 1 128 64000) := rfl
    rw [hc, hvb]
    norm_num
  · rw [specVideoBitrate, pyTrunc_eval _ 1536 (by norm_num) (by norm_num) (by norm_num)]
    decide
  · rw [specVideoBitrate, pyTrunc_eval _ 14643 (by norm_num) (by norm_num) (by norm_num)]
    decide

/-- C4 amended: for a positive target size and duration,
`CPUEncoder.encode_video` computes the video bitrate as the unclamped
`int(targetSize*8*2^20/duration - audioBitrate)` — no margin factor, no
floor/ceiling — accepting exactly the positive values and raising on a
non-positive result. -/
theorem cpuBitrate_spec (targetSize audioBitrate : ℤ) (duration : ℚ)
    (_ht : 0 < targetSize) (_hd : 0 < duration) :
    (∀ v, cpuBitrateCheck targetSize duration audioBitrate = .ok v →
       v = pyTrunc (((targetSize : ℚ) * 8 * 1024 * 1024) / duration - (audioBitrate : ℚ)) ∧ 0 < v) ∧
    (pyTrunc (((targetSize : ℚ) * 8 * 1024 * 1024) / duration - (audioBitrate : ℚ)) ≤ 0 →
       cpuBitrateCheck targetSize duration audioBitrate
         = .error "Calculated video bitrate is too low") := by
  have hvb : cpuVideoBitrate targetSize duration audioBitrate
      = pyTrunc (((targetSize : ℚ) * 8 * 1024 * 1024) / duration - (audioBitrate : ℚ)) := rfl
  have hcheck : cpuBitrateCheck targetSize duration audioBitrate
      = if cpuVideoBitrate targetSize duration audioBitrate ≤ 0
        then .error "Calculated video bitrate is too low"
        else .ok (cpuVideoBitrate targetSize duration audioBitrate) := rfl
  constructor
  · intro v hv
    rw [hcheck] at hv
    by_cases hle : cpuVideoBitrate targetSize duration audioBitrate ≤ 0
    · rw [if_pos hle] at hv
      exact absurd hv (by simp)
    · rw [if_neg hle] at hv
      have heq : cpuVideoBitrate targetSize duration audioBitrate = v := by
        simpa using hv
      refine ⟨by rw [← heq, hvb], by omega⟩
  · intro h
    rw [hcheck, if_pos (by rw [hvb]; exact h)]

/-- Witness for the amended C4: a 100 MB target over 3600 s with 128 kbps
audio is accepted at the unclamped 105016 bps; a 1 MB target over 3600 s
with 64 kbps audio yields a negative bitrate and is rejected. -/
theorem cpuBitrate_spec_witness :
    (cpuBitrateCheck 100 3600 128000 = .ok 105016 ∧ (0 : ℤ) < 105016) ∧
    cpuBitrateCheck 1 3600 64000 = .error "Calculated video bitrate is too low" := by
  have h1 : cpuVideoBitrate 100 3600 128000 = 105016 := by
    rw [cpuVideoBitrate]
    exact pyTrunc_eval _ 105016 (by norm_num) (by norm_num) (by norm_num)
  have hok : cpuBitrateCheck 100 3600 128000 = .ok 105016 := by
    have hc : cpuBitrateCheck 100 3600 128000
        = if cpuVideoBitrate 100 3600 128000 ≤ 0
          then .error "Calculated video bitrate is too low"
          else .ok (cpuVideoBitrate 100 3600 128000) := rfl
    rw [hc, h1]
    norm_num
  constructor
  · exact ⟨hok, ((cpuBitrate_spec 100 128000 3600 (by norm_num) (by norm_num)).1 105016 hok).2⟩
  · exact (cpuBitrate_spec 1 64000 3600 (by norm_num) (by norm_num)).2
      (pyTrunc_nonpos _ (by norm_num))

/-- One iteration of `_verify_download` returns success exactly on a
present file, absent `.aria2` control file, and a positive stable size. -/
theorem verifyStep_success_iff (o : FsObs) :
    verifyStep o = .success ↔
      o.fileExists = true ∧ o.aria2Exists = false ∧
        0 < o.currentSize ∧ o.initialSize = o.currentSize := by
  obtain ⟨fe, ae, is, cs⟩ := o
  cases fe <;> cases ae <;>
    by_cases h3 : 0 < cs ∧ is = cs <;>
      simp [verifyStep, h3]

/-- C6: `_verify_download` returns success only from an iteration that saw
the file present with a positive, stable size and no `.aria2` control
file; an iteration with the control file still present re-checks instead
of succeeding; and an exhausted verification window returns failure — in
particular a window in which no iteration met the conditions. -/
theorem verifyDownload_spec (os : List FsObs) (o : FsObs) :
    (verifyDownload os = true →
       ∃ ob ∈ os, ob.fileExists = true ∧ ob.aria2Exists = false ∧
         0 < ob.currentSize ∧ ob.initialSize = ob.currentSize) ∧
    (o.aria2Exists = true → verifyDownload (o :: os) = verifyDownload os) ∧
    verifyDownload [] = false ∧
    ((∀ ob ∈ os, verifyStep ob ≠ .success) → verifyDownload os = false) := by
  refine ⟨?_, ?_, rfl, ?_⟩
  · induction os with
    | nil => intro h; exact absurd h (by simp [verifyDownload])
    | cons ob rest ih =>
        intro h
        by_cases hs : verifyStep ob = .success
        · exact ⟨ob, List.mem_cons_self ob rest, (verifyStep_success_iff ob).1 hs⟩
        · have hr : verifyStep ob = .retry := by
            cases hv : verifyStep ob with
            | success => exact absurd hv hs
            | retry => rfl
          have heq : verifyDownload (ob :: rest) = verifyDownload rest := by
            simp [verifyDownload, hr]
          obtain ⟨x, hx, hp⟩ := ih (heq ▸ h)
          exact ⟨x, List.mem_cons_of_mem ob hx, hp⟩
  · intro h2
    have hr : verifyStep o = .retry := by
      unfold verifyStep
      by_cases h1 : o.fileExists <;> simp [h1, h2]
    simp [verifyDownload, hr]
  · intro h
    induction os with
    | nil => rfl
    | cons ob rest ih =>
        have hr : verifyStep ob = .retry := by
          cases hv : verifyStep ob with
          | success => exact absurd hv (h ob (List.mem_cons_self ob rest))
          | retry => rfl
        have := ih (fun x hx => h x (List.mem_cons_of_mem ob hx))
        simp [verifyDownload, hr, this]

/-- Witness for C6: with the `.aria2` marker still present at the first
iteration, the verifier re-checks and succeeds at the second iteration,
where the stable 10-byte file with no marker is observed. -/
theorem verifyDownload_spec_witness :
    verifyDownload [⟨true, true, 10, 10⟩, ⟨true, false, 10, 10⟩] = true ∧
    verifyDownload [⟨true, true, 10, 10⟩, ⟨true, false, 10, 10⟩]
      = verifyDownload [⟨true, false, 10, 10⟩] ∧
    (∃ ob ∈ [(⟨true, true, 10, 10⟩ : FsObs), ⟨true, false, 10, 10⟩],
       ob.fileExists = true ∧ ob.aria2Exists = false ∧
         0 < ob.currentSize ∧ ob.initialSize = ob.currentSize) := by
  have h := verifyDownload_spec [⟨true, false, 10, 10⟩] ⟨true, true, 10, 10⟩
  have hrun : verifyDownload [⟨true, true, 10, 10⟩, ⟨true, false, 10, 10⟩] = true := by decide
  have h2 := verifyDownload_spec [⟨true, true, 10, 10⟩, ⟨true, false, 10, 10⟩] ⟨true, true, 10, 10⟩
  exact ⟨hrun, h.2.1 rfl, h2.1 hrun⟩

/-- C7: verification is idempotent — on an already-verified file that is
untouched (every later observation of it is the same stable snapshot), a
repeated call returns success again, whatever remains of the verification window
of each call; the embedding is read-only, reflecting that the code
only performs `exists`/`stat` calls on the file. -/
theorem verifyDownload_idempotent (s : ℕ) (o : FsObs) (rest rest2 : List FsObs)
    (hs : 0 < s) (ho : stableObs s o) :
    verifyDownload (o :: rest) = true ∧ verifyDownload (o :: rest2) = true := by
  obtain ⟨h1, h2, h3, h4⟩ := ho
  have hsucc : verifyStep o = .success :=
    (verifyStep_success_iff o).2 ⟨h1, h2, by omega, by omega⟩
  constructor <;> simp [verifyDownload, hsucc]

/-- Witness for C7: both calls on the stable 10-byte snapshot succeed. -/
theorem verifyDownload_idempotent_witness :
    verifyDownload [⟨true, false, 10, 10⟩] = true ∧
    verifyDownload [⟨true, false, 10, 10⟩, ⟨true, false, 10, 10⟩] = true :=
  verifyDownload_idempotent 10 ⟨true, false, 10, 10⟩ [] [⟨true, false, 10, 10⟩]
    (by norm_num) ⟨rfl, rfl, rfl, rfl⟩

/-- The forward port scan returns the first free port in its range. -/
theorem scanPorts_spec (free : ℕ → Bool) :
    ∀ fuel port p, scanPorts free port fuel = some p →
      free p = true ∧ port ≤ p ∧ p < port + fuel ∧
        ∀ q, port ≤ q → q < p → free q = false := by
  intro fuel
  induction fuel with
  | zero => intro port p h; exact absurd h (by simp [scanPorts])
  | succ n ih =>
      intro port p h
      by_cases hf : free port
      · have hp : p = port := by
          have : some port = some p := by simpa [scanPorts, hf] using h
          exact (Option.some.inj this).symm
        subst hp
        exact ⟨hf, le_refl p, by omega, fun q hq1 hq2 => absurd hq1 (by omega)⟩
      · have h2 : scanPorts free (port + 1) n = some p := by
          simpa [scanPorts, hf] using h
        obtain ⟨ha, hb, hc, hd⟩ := ih (port + 1) p h2
        refine ⟨ha, by omega, by omega, fun q hq1 hq2 => ?_⟩
        by_cases hq : q = port
        · subst hq; exact Bool.not_eq_true _ ▸ (by simpa using hf)
        · exact hd q (by omega) hq2

/-- If every port in the scan is busy, the scan returns `none`. -/
theorem scanPorts_none (free : ℕ → Bool) :
    ∀ fuel port, (∀ q, port ≤ q → q < port + fuel → free q = false) →
      scanPorts free port fuel = none := by
  intro fuel
  induction fuel with
  | zero => intro port _; rfl
  | succ n ih =>
      intro port h
      have hf : free port = false := h port (le_refl port) (by omega)
      have : scanPorts free (port + 1) n = none :=
        ih (port + 1) (fun q hq1 hq2 => h q (by omega) (by omega))
      simp [scanPorts, hf, this]

/-- C8: when the configured port is busy, `start_aria2c` adopts the first
free port strictly beyond it within the scan range ending at 7000; the
adopted port is always free (the configured one when it was free); and if
the configured port is busy and every port in `(configured, 7000]` is
busy, the start attempt fails with `Aria2Error` before launching the
daemon process. -/
theorem resolvePort_spec (free : ℕ → Bool) (configured : ℕ) :
    (∀ p, resolvePort free configured = .usePort p →
       free p = true ∧
         (p = configured ∨
           (configured < p ∧ p ≤ 7000 ∧ ∀ q, configured < q → q < p → free q = false))) ∧
    (free configured = false →
      (∀ q, configured < q → q ≤ 7000 → free q = false) →
      resolvePort free configured = .fail) := by
  constructor
  · intro p hp
    by_cases hf : free configured
    · have : p = configured := by
        have h2 : PortDecision.usePort configured = PortDecision.usePort p := by
          simpa [resolvePort, hf] using hp
        cases h2
        rfl
      subst this
      exact ⟨hf, Or.inl rfl⟩
    · rw [resolvePort, if_neg hf] at hp
      cases hscan : findAvailablePort free (configured + 1) 7000 with
      | none => rw [hscan] at hp; cases hp
      | some p2 =>
          rw [hscan] at hp
          have hp2 : p2 = p := by cases hp; rfl
          subst hp2
          obtain ⟨ha, hb, hc, hd⟩ := scanPorts_spec free (7000 + 1 - (configured + 1))
            (configured + 1) p2 hscan
          exact ⟨ha, Or.inr ⟨by omega, by omega, fun q hq1 hq2 => hd q (by omega) hq2⟩⟩
  · intro hbusy hall
    rw [resolvePort, if_neg (by simp [hbusy])]
    have : findAvailablePort free (configured + 1) 7000 = none := by
      apply scanPorts_none
      intro q hq1 hq2
      exact hall q (by omega) (by omega)
    rw [this]

/-- Witness for C8: with 6800 and 6801 busy and 6802 free, the scan adopts
6802; with every port from 6999 up busy, the start attempt fails. -/
theorem resolvePort_spec_witness :
    (Encp.resolvePort (fun n => decide (n = 6802)) 6800 = .usePort 6802 →
       (fun n => decide (n = 6802)) 6802 = true) ∧
    Encp.resolvePort (fun n => decide (n < 6999)) 6999 = .fail := by
  constructor
  · intro hp
    exact ((resolvePort_spec (fun n => decide (n = 6802)) 6800).1 6802 hp).1
  · exact (resolvePort_spec (fun n => decide (n < 6999)) 6999).2 (by decide)
      (fun q h1 _ => by simp [decide_eq_false_iff_not.mpr (by omega : ¬ q < 6999)])

end Encp
